import Mathlib

/-!
Shallow embedding of `core/src/subgraph/provider.rs` from graph-node:
the `SubgraphAssignmentProvider` with its `start`, `stop` and
`take_event_stream` operations.

Modelling choices, each tied to the source:
* `SubgraphDeploymentId` is an opaque string (the Rust type wraps a string).
* The `HashSet<SubgraphDeploymentId>` behind the `Mutex` is a
  `Finset SubgraphDeploymentId`; `HashSet::insert` (returns whether the
  element was newly inserted) and `HashSet::remove` (returns whether the
  element was present) are `runningInsert` / `runningRemove`.
* The bounded mpsc channel is modelled by the ordered list of events that
  have been enqueued on it (`events`); `Sender::send` appends.  The
  `Receiver` handle held in `event_stream: Option<Receiver<_>>` is an
  `Option Unit`.
* External collaborators (IPFS resolver, dynamic-data-source loader, store)
  are modelled by a per-call environment `StartEnv` giving the outcome of
  each I/O call the `start` body makes, in source order.
* The store's observable side effects are recorded in the provider state:
  attribute-index build requests and results, and the
  `update_failed_operations` failure-marker writes (attempted vs applied).
-/

deriving instance DecidableEq for Except

abbrev SubgraphDeploymentId := String

/-- A data source entry of a manifest (static or dynamically discovered).
Its contents are opaque to the provider; only identity and order matter. -/
structure DataSource where
  name : String
deriving DecidableEq, Repr

/-- `SubgraphManifest`: resolved from IPFS; carries the deployment id, the
schema document (opaque here) and the ordered list of data sources. -/
structure SubgraphManifest where
  id : SubgraphDeploymentId
  schema : String
  data_sources : List DataSource
deriving DecidableEq, Repr

/-- `SubgraphAssignmentProviderError` variants used by `provider.rs`. -/
inductive SubgraphAssignmentProviderError where
  | ResolveError (msg : String)
  | DynamicDataSourcesError (msg : String)
  | AlreadyRunning (id : SubgraphDeploymentId)
  | NotRunning (id : SubgraphDeploymentId)
deriving DecidableEq, Repr

/-- `SubgraphAssignmentProviderEvent`: the lifecycle events sent on the
channel (`SubgraphStart` carries the assembled manifest, `SubgraphStop`
carries the deployment id). -/
inductive SubgraphAssignmentProviderEvent where
  | SubgraphStart (manifest : SubgraphManifest)
  | SubgraphStop (id : SubgraphDeploymentId)
deriving DecidableEq, Repr

/-- Discriminator for the `AlreadyRunning` variant. -/
def SubgraphAssignmentProviderError.isAlreadyRunning :
    SubgraphAssignmentProviderError → Bool
  | .AlreadyRunning _ => true
  | _ => false

/-- `HashSet::insert`: returns `(newlyInserted, set)`; the set is unchanged
when the element was already present (provider.rs lines 119-124). -/
def runningInsert (s : Finset SubgraphDeploymentId) (id : SubgraphDeploymentId) :
    Bool × Finset SubgraphDeploymentId :=
  if id ∈ s then (false, s) else (true, insert id s)

/-- `HashSet::remove`: returns `(wasPresent, set)` (provider.rs line 176). -/
def runningRemove (s : Finset SubgraphDeploymentId) (id : SubgraphDeploymentId) :
    Bool × Finset SubgraphDeploymentId :=
  if id ∈ s then (true, s.erase id) else (false, s)

/-- The observable state of one `SubgraphAssignmentProvider` together with
the store effects its calls have issued. -/
structure ProviderState where
  /-- `event_stream: Option<Receiver<_>>`; `some` until taken. -/
  event_stream : Option Unit
  /-- The shared `Arc<Mutex<HashSet<SubgraphDeploymentId>>>`. -/
  subgraphs_running : Finset SubgraphDeploymentId
  /-- Events enqueued on the channel, oldest first. -/
  events : List SubgraphAssignmentProviderEvent
  /-- Ids for which `build_entity_attribute_indexes` was requested. -/
  index_requests : List SubgraphDeploymentId
  /-- Ids whose attribute-index build the store actually performed. -/
  indexes_built : List SubgraphDeploymentId
  /-- Ids for which `apply_metadata_operations(update_failed_operations ..)`
  was issued (the attempt, regardless of the store's answer). -/
  marker_attempts : List SubgraphDeploymentId
  /-- Ids whose failure marker the store actually persisted. -/
  store_failed : List SubgraphDeploymentId
deriving DecidableEq

/-- `SubgraphAssignmentProvider::new`: fresh receiver available, empty
running set, nothing sent yet. -/
def ProviderState.new : ProviderState :=
  { event_stream := some ()
    subgraphs_running := ∅
    events := []
    index_requests := []
    indexes_built := []
    marker_attempts := []
    store_failed := [] }

/-- Outcomes of the external calls one `start` invocation performs, in the
order the source makes them: `SubgraphManifest::resolve` (line 105),
`load_dynamic_data_sources` (line 108), `build_entity_attribute_indexes`
(line 137, answer discarded by `.ok()`), and `apply_metadata_operations`
for the failure marker (line 164, answer discarded). -/
structure StartEnv where
  resolve_result : Except String SubgraphManifest
  load_dds_result : Except String (List DataSource)
  index_build_ok : Bool
  marker_write_ok : Bool
deriving Repr

/-- `SubgraphAssignmentProvider::start` (provider.rs lines 81-169).

The async block resolves the manifest, loads the dynamic data sources,
appends them to `subgraph.data_sources` (line 116), then atomically
inserts `subgraph.id` into the running set; a failed insert returns
`AlreadyRunning(subgraph.id)` (lines 119-128).  On successful insert it
requests attribute indexes, discarding the store's answer with `.ok()`
(lines 133-145), and sends `SubgraphStart(subgraph)` on the channel
(lines 148-155).  The surrounding `map_err` (lines 157-168) issues the
failure-marker write for the ARGUMENT id (`subgraph_id`, a clone of `id`
from line 87) on every error, discards that write's own outcome
(`let _ignore_error = ...`), and returns the original error. -/
def start (st : ProviderState) (id : SubgraphDeploymentId) (env : StartEnv) :
    Except SubgraphAssignmentProviderError Unit × ProviderState :=
  let inner : Except SubgraphAssignmentProviderError Unit × ProviderState :=
    match env.resolve_result with
    | Except.error msg => (Except.error (.ResolveError msg), st)
    | Except.ok subgraph0 =>
      match env.load_dds_result with
      | Except.error msg => (Except.error (.DynamicDataSourcesError msg), st)
      | Except.ok data_sources =>
        let subgraph : SubgraphManifest :=
          { subgraph0 with data_sources := subgraph0.data_sources ++ data_sources }
        let ins := runningInsert st.subgraphs_running subgraph.id
        if ins.1 then
          let st1 : ProviderState :=
            { st with
              subgraphs_running := ins.2
              index_requests := st.index_requests ++ [subgraph.id]
              indexes_built :=
                st.indexes_built ++ (if env.index_build_ok then [subgraph.id] else [])
              events := st.events ++ [.SubgraphStart subgraph] }
          (Except.ok (), st1)
        else
          (Except.error (.AlreadyRunning subgraph.id), st)
  match inner with
  | (Except.ok _, st1) => (Except.ok (), st1)
  | (Except.error e, st1) =>
      (Except.error e,
        { st1 with
          marker_attempts := st1.marker_attempts ++ [id]
          store_failed :=
            st1.store_failed ++ (if env.marker_write_ok then [id] else []) })

/-- `SubgraphAssignmentProvider::stop` (provider.rs lines 171-188): remove
`id` from the running set; if it was present, send `SubgraphStop(id)`,
otherwise fail with `NotRunning(id)` and send nothing. -/
def stop (st : ProviderState) (id : SubgraphDeploymentId) :
    Except SubgraphAssignmentProviderError Unit × ProviderState :=
  let rem := runningRemove st.subgraphs_running id
  if rem.1 then
    (Except.ok (),
      { st with
        subgraphs_running := rem.2
        events := st.events ++ [.SubgraphStop id] })
  else
    (Except.error (.NotRunning id), st)

/-- `take_event_stream` (provider.rs lines 194-201): `Option::take` on the
stored receiver. -/
def take_event_stream (st : ProviderState) : Option Unit × ProviderState :=
  match st.event_stream with
  | some r => (some r, { st with event_stream := none })
  | none => (none, st)

/-!
Concurrent model of simultaneous `start(id)` calls for one deployment id.

In the source, a `start` call touches the shared running set exactly once:
the atomic check-and-insert under the `Mutex` (provider.rs lines 119-124).
Everything before it (manifest resolution, dynamic-data-source loading,
lines 105-116) is I/O and pure data assembly that never reads or writes the
set, and everything after it never mutates the set.  An interleaving of
several concurrent calls is therefore fully described by the order in which
their guard steps hit the set: steps of the unsynchronized phases commute
with everything and are modelled as no-ops of the scheduler.
-/

/-- Phase of one in-flight `start(id)` call: still in the unsynchronized
resolution phase, or past the guard with the outcome the guard decided
(`ok` for the inserting call, `AlreadyRunning id` otherwise). -/
inductive CallPhase where
  | resolving
  | past_guard (r : Except SubgraphAssignmentProviderError Unit)
deriving DecidableEq, Repr

/-- Shared running set plus the phase of each concurrent call. -/
structure ConcurrentState where
  subgraphs_running : Finset SubgraphDeploymentId
  calls : List CallPhase
deriving DecidableEq

/-- One scheduler step giving call `i` its atomic guard access
(provider.rs lines 119-128): if call `i` is still resolving, it performs
the check-and-insert and moves past the guard with `Except.ok ()` on a
fresh insert and `AlreadyRunning id` otherwise; scheduling a call that is
already past the guard changes nothing (its remaining work never touches
the set). -/
def guardStep (id : SubgraphDeploymentId) (s : ConcurrentState) (i : Nat) :
    ConcurrentState :=
  match s.calls[i]? with
  | some CallPhase.resolving =>
      let ins := runningInsert s.subgraphs_running id
      { subgraphs_running := ins.2
        calls := s.calls.set i (CallPhase.past_guard
          (if ins.1 then Except.ok () else Except.error (.AlreadyRunning id))) }
  | _ => s

/-- Run a schedule: the list is the order in which the scheduler lets the
calls reach the guard. -/
def runSchedule (id : SubgraphDeploymentId) (s : ConcurrentState)
    (sched : List Nat) : ConcurrentState :=
  sched.foldl (guardStep id) s

/-- How many of the concurrent calls have finished with outcome `r`. -/
def countResult (r : Except SubgraphAssignmentProviderError Unit) :
    List CallPhase → Nat
  | [] => 0
  | CallPhase.past_guard x :: rest =>
      (if x = r then 1 else 0) + countResult r rest
  | CallPhase.resolving :: rest => countResult r rest

/-- Invariant tying the shared set to the outcomes of the concurrent
calls: the number of successful calls is one exactly when `id` is in the
set and zero otherwise; every finished call ended in `Ok` or in
`AlreadyRunning id`; and as soon as any call finished, `id` is in the
set. -/
def ConcInv (id : SubgraphDeploymentId) (s : ConcurrentState) : Prop :=
  (countResult (Except.ok ()) s.calls =
    if id ∈ s.subgraphs_running then 1 else 0) ∧
  (∀ p ∈ s.calls, p = CallPhase.resolving ∨
    p = CallPhase.past_guard (Except.ok ()) ∨
    p = CallPhase.past_guard (Except.error (.AlreadyRunning id))) ∧
  ((∃ r, CallPhase.past_guard r ∈ s.calls) → id ∈ s.subgraphs_running)

/-!
Trace model: a client issues a sequence of provider calls; each `start`
comes with the outcomes of its external I/O.  `runTrace` threads the state
and records each call together with whether it succeeded.
-/

/-- One provider call in a trace. -/
inductive ProviderOp where
  | opStart (id : SubgraphDeploymentId) (env : StartEnv)
  | opStop (id : SubgraphDeploymentId)
  | opTake
deriving Repr

/-- Apply one call; report whether it succeeded (`Except.ok` for start and
stop, `some` for take). -/
def applyOp (st : ProviderState) (op : ProviderOp) : ProviderState × Bool :=
  match op with
  | ProviderOp.opStart id env =>
      let r := start st id env
      (r.2, r.1.isOk)
  | ProviderOp.opStop id =>
      let r := stop st id
      (r.2, r.1.isOk)
  | ProviderOp.opTake =>
      let r := take_event_stream st
      (r.2, r.1.isSome)

/-- Run a trace from `st`, returning the final state and the chronological
log of calls paired with their success bit. -/
def runTrace (st : ProviderState) : List ProviderOp →
    ProviderState × List (ProviderOp × Bool)
  | [] => (st, [])
  | op :: rest =>
      let r := applyOp st op
      let rec' := runTrace r.1 rest
      (rec'.1, (op, r.2) :: rec'.2)

/-- The specification's view of "running": fold over the log, a successful
`start(j)` makes `j` active, a successful `stop(j)` makes it inactive. -/
def specActive (j : SubgraphDeploymentId) (acc : Bool) :
    List (ProviderOp × Bool) → Bool
  | [] => acc
  | (op, ok) :: rest =>
      let acc1 :=
        match op with
        | ProviderOp.opStart i _ => if i = j && ok then true else acc
        | ProviderOp.opStop i => if i = j && ok then false else acc
        | ProviderOp.opTake => acc
      specActive j acc1 rest

/-- Content-addressing assumption on a trace: every `start i` whose
resolution succeeds yields a manifest whose id is `i` (the manifest link
`/ipfs/{id}` is derived from the id, provider.rs line 95). -/
def idCoherent : List ProviderOp → Bool
  | [] => true
  | ProviderOp.opStart i env :: rest =>
      (match env.resolve_result with
       | Except.ok m => m.id = i
       | Except.error _ => true) && idCoherent rest
  | _ :: rest => idCoherent rest

/-!
Concrete inputs used to exercise the theorems on closed instances.
-/

/-- A manifest for deployment `"A"` with one static data source. -/
def mA : SubgraphManifest :=
  { id := "A", schema := "type Thing", data_sources := [{ name := "static0" }] }

/-- Environment in which every external call for `"A"` succeeds and the
loader returns one dynamic data source. -/
def envA : StartEnv :=
  { resolve_result := Except.ok mA
    load_dds_result := Except.ok [{ name := "dyn0" }]
    index_build_ok := true
    marker_write_ok := true }

/-- Environment whose IPFS resolution fails. -/
def envResolveFail : StartEnv :=
  { resolve_result := Except.error "ipfs timeout"
    load_dds_result := Except.ok []
    index_build_ok := true
    marker_write_ok := true }

/-- Environment resolving the argument id to a manifest whose own id is
the different string `"M"`. -/
def envOtherId : StartEnv :=
  { resolve_result := Except.ok { id := "M", schema := "type T", data_sources := [] }
    load_dds_result := Except.ok []
    index_build_ok := true
    marker_write_ok := true }

/-!
Helper lemmas shared by the claim theorems.
-/

/-- `start` never changes the stored receiver handle. -/
theorem start_event_stream_eq (st : ProviderState) (id : SubgraphDeploymentId)
    (env : StartEnv) : (start st id env).2.event_stream = st.event_stream := by
  unfold start
  cases hr : env.resolve_result with
  | error msg => simp
  | ok m0 =>
    cases hl : env.load_dds_result with
    | error msg => simp
    | ok d =>
      by_cases hmem :
          (({ m0 with data_sources := m0.data_sources ++ d } :
            SubgraphManifest)).id ∈ st.subgraphs_running <;>
        simp [runningInsert, hmem]

/-- `stop` never changes the stored receiver handle. -/
theorem stop_event_stream_eq (st : ProviderState) (id : SubgraphDeploymentId) :
    (stop st id).2.event_stream = st.event_stream := by
  unfold stop runningRemove
  by_cases h : id ∈ st.subgraphs_running <;> simp [h]

/-- On every error path of `start` the running set is untouched: the
check-and-insert at provider.rs lines 119-124 is the sole mutation and a
failed insert leaves the set as it was. -/
theorem start_error_running_eq (st : ProviderState) (id : SubgraphDeploymentId)
    (env : StartEnv) (e : SubgraphAssignmentProviderError)
    (h : (start st id env).1 = Except.error e) :
    (start st id env).2.subgraphs_running = st.subgraphs_running := by
  unfold start at h ⊢
  cases hr : env.resolve_result with
  | error msg => simp [hr]
  | ok m0 =>
    cases hl : env.load_dds_result with
    | error msg => simp [hr, hl]
    | ok d =>
      by_cases hmem :
          (({ m0 with data_sources := m0.data_sources ++ d } :
            SubgraphManifest)).id ∈ st.subgraphs_running
      · simp [hr, hl, runningInsert, hmem]
      · simp [hr, hl, runningInsert, hmem] at h

/-- The effect of the `map_err` wrapper (provider.rs lines 157-168) on the
store, applied to a state: marker attempted for the argument id, persisted
only when the store's answer is positive. -/
def markFailed (st : ProviderState) (id : SubgraphDeploymentId)
    (env : StartEnv) : ProviderState :=
  { st with
    marker_attempts := st.marker_attempts ++ [id]
    store_failed := st.store_failed ++ (if env.marker_write_ok then [id] else []) }

/-- `start` when everything up to and including the guard succeeds. -/
theorem start_of_resolved (st : ProviderState) (id : SubgraphDeploymentId)
    (env : StartEnv) (m0 : SubgraphManifest) (d : List DataSource)
    (hr : env.resolve_result = Except.ok m0)
    (hl : env.load_dds_result = Except.ok d)
    (hmem : m0.id ∉ st.subgraphs_running) :
    start st id env =
      (Except.ok (),
        { st with
          subgraphs_running := insert m0.id st.subgraphs_running
          index_requests := st.index_requests ++ [m0.id]
          indexes_built :=
            st.indexes_built ++ (if env.index_build_ok then [m0.id] else [])
          events := st.events ++
            [.SubgraphStart { m0 with data_sources := m0.data_sources ++ d }] }) := by
  unfold start
  simp [hr, hl, runningInsert, hmem]

/-- `start` when the manifest's own id is already in the running set. -/
theorem start_of_already_running (st : ProviderState)
    (id : SubgraphDeploymentId) (env : StartEnv) (m0 : SubgraphManifest)
    (d : List DataSource)
    (hr : env.resolve_result = Except.ok m0)
    (hl : env.load_dds_result = Except.ok d)
    (hmem : m0.id ∈ st.subgraphs_running) :
    start st id env =
      (Except.error (.AlreadyRunning m0.id), markFailed st id env) := by
  unfold start markFailed
  simp [hr, hl, runningInsert, hmem]

/-- `start` when manifest resolution fails. -/
theorem start_of_resolve_error (st : ProviderState)
    (id : SubgraphDeploymentId) (env : StartEnv) (msg : String)
    (hr : env.resolve_result = Except.error msg) :
    start st id env =
      (Except.error (.ResolveError msg), markFailed st id env) := by
  unfold start markFailed
  simp [hr]

/-- `start` when dynamic-data-source loading fails. -/
theorem start_of_dds_error (st : ProviderState) (id : SubgraphDeploymentId)
    (env : StartEnv) (m0 : SubgraphManifest) (msg : String)
    (hr : env.resolve_result = Except.ok m0)
    (hl : env.load_dds_result = Except.error msg) :
    start st id env =
      (Except.error (.DynamicDataSourcesError msg), markFailed st id env) := by
  unfold start markFailed
  simp [hr, hl]

/-- Inversion: a successful `start` means resolution and loading
succeeded and the manifest id was fresh in the running set. -/
theorem start_ok_inversion (st : ProviderState) (id : SubgraphDeploymentId)
    (env : StartEnv) (h : (start st id env).1 = Except.ok ()) :
    ∃ m0 d, env.resolve_result = Except.ok m0 ∧
      env.load_dds_result = Except.ok d ∧
      m0.id ∉ st.subgraphs_running := by
  cases hr : env.resolve_result with
  | error msg => rw [start_of_resolve_error st id env msg hr] at h; exact absurd h (by simp)
  | ok m0 =>
    cases hl : env.load_dds_result with
    | error msg => rw [start_of_dds_error st id env m0 msg hr hl] at h; exact absurd h (by simp)
    | ok d =>
      by_cases hmem : m0.id ∈ st.subgraphs_running
      · rw [start_of_already_running st id env m0 d hr hl hmem] at h
        exact absurd h (by simp)
      · exact ⟨m0, d, rfl, rfl, hmem⟩

/-- The result of `start` does not depend on whether the store accepts the
failure-marker write (its outcome is bound to `_ignore_error` and dropped,
provider.rs line 164). -/
theorem start_result_marker_independent (st : ProviderState)
    (id : SubgraphDeploymentId) (env : StartEnv) (b : Bool) :
    (start st id { env with marker_write_ok := b }).1 = (start st id env).1 := by
  obtain ⟨rres, lres, ib, mw⟩ := env
  cases rres with
  | error msg => rfl
  | ok m0 =>
    cases lres with
    | error msg => rfl
    | ok d =>
      by_cases hmem : m0.id ∈ st.subgraphs_running <;>
        simp [start, runningInsert, hmem]

/-- On every error path the failure-marker write targets the ARGUMENT id. -/
theorem start_error_marker_attempts (st : ProviderState)
    (id : SubgraphDeploymentId) (env : StartEnv)
    (e : SubgraphAssignmentProviderError)
    (h : (start st id env).1 = Except.error e) :
    (start st id env).2.marker_attempts = st.marker_attempts ++ [id] := by
  cases hr : env.resolve_result with
  | error msg => rw [start_of_resolve_error st id env msg hr]; rfl
  | ok m0 =>
    cases hl : env.load_dds_result with
    | error msg => rw [start_of_dds_error st id env m0 msg hr hl]; rfl
    | ok d =>
      by_cases hmem : m0.id ∈ st.subgraphs_running
      · rw [start_of_already_running st id env m0 d hr hl hmem]; rfl
      · rw [start_of_resolved st id env m0 d hr hl hmem] at h
        exact absurd h (by simp)

/-- Every trace step leaves an already-taken receiver taken. -/
theorem runTrace_event_stream_none (ops : List ProviderOp) :
    ∀ st : ProviderState, st.event_stream = none →
      (runTrace st ops).1.event_stream = none := by
  induction ops with
  | nil => intro st h; simpa [runTrace]
  | cons op rest ih =>
    intro st h
    show (runTrace (applyOp st op).1 rest).1.event_stream = none
    apply ih
    cases op with
    | opStart id env =>
      show (start st id env).2.event_stream = none
      rw [start_event_stream_eq]; exact h
    | opStop id =>
      show (stop st id).2.event_stream = none
      rw [stop_event_stream_eq]; exact h
    | opTake =>
      show (take_event_stream st).2.event_stream = none
      simp [take_event_stream, h]

/-- `take_event_stream` never touches the running set. -/
theorem take_running_eq (st : ProviderState) :
    (take_event_stream st).2.subgraphs_running = st.subgraphs_running := by
  cases h : st.event_stream <;> simp [take_event_stream, h]

/-- Membership after one `start i`, phrased as the fold step of
`specActive`, assuming a content-addressed resolution for `i`. -/
theorem start_mem_step (st : ProviderState) (i : SubgraphDeploymentId)
    (env : StartEnv)
    (hco : (match env.resolve_result with
            | Except.ok m => decide (m.id = i)
            | Except.error _ => true) = true)
    (j : SubgraphDeploymentId) :
    decide (j ∈ (start st i env).2.subgraphs_running) =
      (if i = j && (start st i env).1.isOk then true
       else decide (j ∈ st.subgraphs_running)) := by
  cases hres : (start st i env).1 with
  | ok u =>
    obtain ⟨m0, d, hr, hl, hmem⟩ := start_ok_inversion st i env (by rw [hres])
    have hid : m0.id = i := by
      rw [hr] at hco
      simpa using hco
    have hrun : (start st i env).2.subgraphs_running =
        insert i st.subgraphs_running := by
      rw [start_of_resolved st i env m0 d hr hl hmem, ← hid]
    rw [hrun]
    by_cases hij : i = j
    · subst hij
      simp [Finset.mem_insert, Except.isOk, Except.toBool]
    · have hji : ¬ j = i := fun h => hij h.symm
      simp [Finset.mem_insert, hij, hji]
  | error e =>
    have hrun := start_error_running_eq st i env e hres
    rw [hrun]
    simp [Except.isOk, Except.toBool]

/-- Membership after one `stop i`, phrased as the fold step of
`specActive`. -/
theorem stop_mem_step (st : ProviderState) (i j : SubgraphDeploymentId) :
    decide (j ∈ (stop st i).2.subgraphs_running) =
      (if i = j && (stop st i).1.isOk then false
       else decide (j ∈ st.subgraphs_running)) := by
  unfold stop runningRemove
  by_cases hi : i ∈ st.subgraphs_running
  · by_cases hij : i = j
    · subst hij
      simp [hi, Finset.mem_erase, Except.isOk, Except.toBool]
    · have hji : ¬ j = i := fun h => hij h.symm
      simp [hi, hij, Finset.mem_erase, hji, Except.isOk, Except.toBool]
  · simp [hi, Except.isOk, Except.toBool]

/-- The running set tracks the specification's started-and-not-stopped
fold over the call log, for any trace whose resolutions are
content-addressed. -/
theorem runTrace_running_spec (ops : List ProviderOp) :
    ∀ st : ProviderState, idCoherent ops = true →
      ∀ j : SubgraphDeploymentId,
        (j ∈ (runTrace st ops).1.subgraphs_running ↔
          specActive j (decide (j ∈ st.subgraphs_running))
            (runTrace st ops).2 = true) := by
  induction ops with
  | nil =>
    intro st _ j
    simp [runTrace, specActive]
  | cons op rest ih =>
    intro st hco j
    cases op with
    | opStart i env =>
      have hco2 : idCoherent rest = true := by
        have := hco
        simp only [idCoherent, Bool.and_eq_true] at this
        exact this.2
      have hco1 : (match env.resolve_result with
          | Except.ok m => decide (m.id = i)
          | Except.error _ => true) = true := by
        have := hco
        simp only [idCoherent, Bool.and_eq_true] at this
        exact this.1
      have hstep : runTrace st (ProviderOp.opStart i env :: rest) =
          ((runTrace (start st i env).2 rest).1,
           (ProviderOp.opStart i env, (start st i env).1.isOk) ::
             (runTrace (start st i env).2 rest).2) := rfl
      rw [hstep]
      dsimp only
      rw [specActive]
      rw [ih (start st i env).2 hco2 j, start_mem_step st i env hco1 j]
    | opStop i =>
      have hco2 : idCoherent rest = true := by
        simpa only [idCoherent] using hco
      have hstep : runTrace st (ProviderOp.opStop i :: rest) =
          ((runTrace (stop st i).2 rest).1,
           (ProviderOp.opStop i, (stop st i).1.isOk) ::
             (runTrace (stop st i).2 rest).2) := rfl
      rw [hstep]
      dsimp only
      rw [specActive]
      rw [ih (stop st i).2 hco2 j, stop_mem_step st i j]
    | opTake =>
      have hco2 : idCoherent rest = true := by
        simpa only [idCoherent] using hco
      have hstep : runTrace st (ProviderOp.opTake :: rest) =
          ((runTrace (take_event_stream st).2 rest).1,
           (ProviderOp.opTake, (take_event_stream st).1.isSome) ::
             (runTrace (take_event_stream st).2 rest).2) := rfl
      rw [hstep]
      dsimp only
      rw [specActive]
      rw [ih (take_event_stream st).2 hco2 j, take_running_eq]

/-- `stop` succeeds exactly on members of the running set. -/
theorem stop_ok_iff (st : ProviderState) (j : SubgraphDeploymentId) :
    (stop st j).1 = Except.ok () ↔ j ∈ st.subgraphs_running := by
  unfold stop runningRemove
  by_cases h : j ∈ st.subgraphs_running <;> simp [h]

/-- Overwriting a still-resolving slot adds the new outcome to the tally. -/
theorem countResult_set (r : Except SubgraphAssignmentProviderError Unit)
    (l : List CallPhase) :
    ∀ (i : Nat) (b : Except SubgraphAssignmentProviderError Unit),
      l[i]? = some CallPhase.resolving →
      countResult r (l.set i (CallPhase.past_guard b)) =
        countResult r l + (if b = r then 1 else 0) := by
  induction l with
  | nil => intro i b h; simp at h
  | cons hd tl ih =>
    intro i b h
    cases i with
    | zero =>
      have hhd : hd = CallPhase.resolving := by simpa using h
      subst hhd
      simp [List.set, countResult, Nat.add_comm]
    | succ m =>
      have htl : tl[m]? = some CallPhase.resolving := by simpa using h
      cases hd with
      | resolving => simp [List.set, countResult, ih m b htl]
      | past_guard x =>
        simp [List.set, countResult, ih m b htl]
        omega

/-- No call has finished before the first guard step. -/
theorem countResult_replicate (r : Except SubgraphAssignmentProviderError Unit)
    (n : Nat) : countResult r (List.replicate n CallPhase.resolving) = 0 := by
  induction n with
  | zero => rfl
  | succ m ih => simpa [List.replicate, countResult] using ih

/-- When every slot holds one of two distinct outcomes, the two tallies
add up to the number of calls. -/
theorem countResult_total (r1 r2 : Except SubgraphAssignmentProviderError Unit)
    (hne : r1 ≠ r2) (l : List CallPhase)
    (hall : ∀ p ∈ l, p = CallPhase.past_guard r1 ∨
      p = CallPhase.past_guard r2) :
    countResult r1 l + countResult r2 l = l.length := by
  induction l with
  | nil => rfl
  | cons hd tl ih =>
    have hhd := hall hd (by simp)
    have htl : ∀ p ∈ tl, p = CallPhase.past_guard r1 ∨
        p = CallPhase.past_guard r2 := fun p hp => hall p (by simp [hp])
    rcases hhd with h | h <;> subst h <;>
      simp [countResult, hne, hne.symm, ← ih htl] <;> omega

/-- A guard step never changes the number of call slots. -/
theorem guardStep_length (id : SubgraphDeploymentId) (s : ConcurrentState)
    (i : Nat) : (guardStep id s i).calls.length = s.calls.length := by
  unfold guardStep
  cases hc : s.calls[i]? with
  | none => rfl
  | some p =>
    cases p with
    | resolving => simp [List.length_set]
    | past_guard r => rfl

/-- Schedules never change the number of call slots. -/
theorem runSchedule_length (id : SubgraphDeploymentId) (sched : List Nat) :
    ∀ s : ConcurrentState,
      (runSchedule id s sched).calls.length = s.calls.length := by
  induction sched with
  | nil => intro s; rfl
  | cons i rest ih =>
    intro s
    have : runSchedule id s (i :: rest) =
        runSchedule id (guardStep id s i) rest := rfl
    rw [this, ih (guardStep id s i), guardStep_length]

/-- One guard step preserves the concurrency invariant. -/
theorem guardStep_inv (id : SubgraphDeploymentId) (s : ConcurrentState)
    (i : Nat) (h : ConcInv id s) : ConcInv id (guardStep id s i) := by
  obtain ⟨hcount, hall, hfin⟩ := h
  unfold guardStep
  cases hc : s.calls[i]? with
  | none => exact ⟨hcount, hall, hfin⟩
  | some p =>
    cases p with
    | past_guard r => exact ⟨hcount, hall, hfin⟩
    | resolving =>
      by_cases hmem : id ∈ s.subgraphs_running
      · refine ⟨?_, ?_, ?_⟩
        · simp only [runningInsert, hmem, if_true]
          rw [countResult_set _ _ i _ hc]
          simp [hcount, hmem]
        · intro p hp
          rcases List.mem_or_eq_of_mem_set hp with hp1 | hp1
          · exact hall p hp1
          · right; right; simp [runningInsert, hmem] at hp1; exact hp1
        · intro _
          simp only [runningInsert, hmem, if_true]
      · refine ⟨?_, ?_, ?_⟩
        · simp only [runningInsert, hmem, if_false]
          rw [countResult_set _ _ i _ hc]
          simp [hcount, hmem]
        · intro p hp
          rcases List.mem_or_eq_of_mem_set hp with hp1 | hp1
          · exact hall p hp1
          · right; left; simp [runningInsert, hmem] at hp1; exact hp1
        · intro _
          simp [runningInsert, hmem]

/-- Whole schedules preserve the concurrency invariant. -/
theorem runSchedule_inv (id : SubgraphDeploymentId) (sched : List Nat) :
    ∀ s : ConcurrentState, ConcInv id s →
      ConcInv id (runSchedule id s sched) := by
  induction sched with
  | nil => intro s h; exact h
  | cons i rest ih => intro s h; exact ih _ (guardStep_inv id s i h)

/-!
The claim theorems.
-/

/-- Claim C1: for `n ≥ 1` concurrent `start(id)` calls for the same
deployment id not yet running, under EVERY interleaving of their atomic
guard accesses that lets all of them finish, exactly one call comes out
of the guard successfully and every other call ends with
`AlreadyRunning(id)` — the guard's check-and-insert being the only
touch any call gives the shared set. -/
theorem at_most_one_start_succeeds (id : SubgraphDeploymentId)
    (s0 : Finset SubgraphDeploymentId) (n : Nat) (sched : List Nat)
    (hid : id ∉ s0) (hn : 0 < n)
    (hdone : ∀ p ∈ (runSchedule id
        ⟨s0, List.replicate n CallPhase.resolving⟩ sched).calls,
      p ≠ CallPhase.resolving) :
    countResult (Except.ok ()) (runSchedule id
      ⟨s0, List.replicate n CallPhase.resolving⟩ sched).calls = 1 ∧
    countResult (Except.error (.AlreadyRunning id)) (runSchedule id
      ⟨s0, List.replicate n CallPhase.resolving⟩ sched).calls = n - 1 := by
  have hinv0 : ConcInv id ⟨s0, List.replicate n CallPhase.resolving⟩ := by
    refine ⟨?_, ?_, ?_⟩
    · simp [countResult_replicate, hid]
    · intro p hp
      exact Or.inl (List.eq_of_mem_replicate hp)
    · rintro ⟨r, hr⟩
      exact absurd (List.eq_of_mem_replicate hr) (by simp)
  obtain ⟨hcount, hall, hfin⟩ :=
    runSchedule_inv id sched ⟨s0, List.replicate n CallPhase.resolving⟩ hinv0
  have hlen : (runSchedule id
      ⟨s0, List.replicate n CallPhase.resolving⟩ sched).calls.length = n := by
    rw [runSchedule_length]
    exact List.length_replicate n CallPhase.resolving
  obtain ⟨p, hp⟩ : ∃ p, p ∈ (runSchedule id
      ⟨s0, List.replicate n CallPhase.resolving⟩ sched).calls := by
    cases hcs : (runSchedule id
        ⟨s0, List.replicate n CallPhase.resolving⟩ sched).calls with
    | nil => rw [hcs] at hlen; simp at hlen; omega
    | cons q rest => exact ⟨q, by simp⟩
  have hpg : ∃ r, CallPhase.past_guard r ∈ (runSchedule id
      ⟨s0, List.replicate n CallPhase.resolving⟩ sched).calls := by
    rcases hall p hp with h1 | h1 | h1
    · exact absurd h1 (hdone p hp)
    · exact ⟨Except.ok (), h1 ▸ hp⟩
    · exact ⟨Except.error (.AlreadyRunning id), h1 ▸ hp⟩
  have hmem := hfin hpg
  have h1 : countResult (Except.ok ()) (runSchedule id
      ⟨s0, List.replicate n CallPhase.resolving⟩ sched).calls = 1 := by
    rw [hcount, if_pos hmem]
  have hall2 : ∀ q ∈ (runSchedule id
      ⟨s0, List.replicate n CallPhase.resolving⟩ sched).calls,
      q = CallPhase.past_guard (Except.ok ()) ∨
      q = CallPhase.past_guard (Except.error (.AlreadyRunning id)) := by
    intro q hq
    rcases hall q hq with h2 | h2 | h2
    · exact absurd h2 (hdone q hq)
    · exact Or.inl h2
    · exact Or.inr h2
  have htot := countResult_total (Except.ok ())
    (Except.error (.AlreadyRunning id)) (by simp) _ hall2
  exact ⟨h1, by omega⟩

/-- Witness for claim C1: three concurrent calls for `"A"`, a schedule
that lets call 1 win the guard and repeats some calls. -/
theorem at_most_one_start_succeeds_witness :
    countResult (Except.ok ()) (runSchedule "A"
      ⟨∅, List.replicate 3 CallPhase.resolving⟩ [1, 0, 1, 2, 0]).calls = 1 ∧
    countResult (Except.error (.AlreadyRunning "A")) (runSchedule "A"
      ⟨∅, List.replicate 3 CallPhase.resolving⟩ [1, 0, 1, 2, 0]).calls =
      3 - 1 :=
  at_most_one_start_succeeds "A" ∅ 3 [1, 0, 1, 2, 0]
    (by decide) (by decide) (by decide)

/-- Claim C2: over any start/stop/take trace from a fresh provider whose
resolutions are content-addressed (`idCoherent`), `stop(j)` succeeds
exactly when some earlier `start(j)` succeeded and no later `stop(j)`
succeeded — and membership of `j` in the running set coincides with the
same condition. -/
theorem stop_iff_started_and_not_stopped (ops : List ProviderOp)
    (j : SubgraphDeploymentId) (hco : idCoherent ops = true) :
    ((stop (runTrace ProviderState.new ops).1 j).1 = Except.ok () ↔
      specActive j false (runTrace ProviderState.new ops).2 = true) ∧
    (j ∈ (runTrace ProviderState.new ops).1.subgraphs_running ↔
      specActive j false (runTrace ProviderState.new ops).2 = true) := by
  have hmem := runTrace_running_spec ops ProviderState.new hco j
  have hinit : decide (j ∈ ProviderState.new.subgraphs_running) = false := by
    simp [ProviderState.new]
  rw [hinit] at hmem
  exact ⟨(stop_ok_iff (runTrace ProviderState.new ops).1 j).trans hmem, hmem⟩

/-- Witness for claim C2: start `"A"`, stop it, start it again — the
final stop succeeds and the log agrees. -/
theorem stop_iff_started_and_not_stopped_witness :
    ((stop (runTrace ProviderState.new [ProviderOp.opStart "A" envA,
        ProviderOp.opStop "A", ProviderOp.opStart "A" envA]).1 "A").1 =
          Except.ok () ↔
      specActive "A" false (runTrace ProviderState.new
        [ProviderOp.opStart "A" envA, ProviderOp.opStop "A",
          ProviderOp.opStart "A" envA]).2 = true) ∧
    ("A" ∈ (runTrace ProviderState.new [ProviderOp.opStart "A" envA,
        ProviderOp.opStop "A",
        ProviderOp.opStart "A" envA]).1.subgraphs_running ↔
      specActive "A" false (runTrace ProviderState.new
        [ProviderOp.opStart "A" envA, ProviderOp.opStop "A",
          ProviderOp.opStart "A" envA]).2 = true) :=
  stop_iff_started_and_not_stopped [ProviderOp.opStart "A" envA,
    ProviderOp.opStop "A", ProviderOp.opStart "A" envA] "A" (by decide)

/-- Claim C3, counterexample: `start` can return a non-`AlreadyRunning`
error while the running set still contains the argument id afterwards.
After a successful `start "A"`, a second `start "A"` whose IPFS resolution
fails returns `ResolveError`, yet `"A"` remains in the running set (the
set was simply left untouched, containing the entry from the first call). -/
theorem no_insert_on_failure_counterexample :
    (start ProviderState.new "A" envA).1 = Except.ok () ∧
    (start (start ProviderState.new "A" envA).2 "A" envResolveFail).1 =
      Except.error (.ResolveError "ipfs timeout") ∧
    "A" ∈ (start (start ProviderState.new "A" envA).2 "A"
      envResolveFail).2.subgraphs_running := by
  refine ⟨rfl, rfl, ?_⟩
  decide

/-- Claim C3, amended: if `start(id)` returns an error other than
`AlreadyRunning`, the call has left the running set exactly as it was —
it never inserted; in particular, if id was not in the set before the
call, it is not in it afterwards. -/
theorem no_insert_on_failure (st : ProviderState)
    (id : SubgraphDeploymentId) (env : StartEnv)
    (e : SubgraphAssignmentProviderError)
    (h : (start st id env).1 = Except.error e)
    (_hne : e.isAlreadyRunning = false) :
    (start st id env).2.subgraphs_running = st.subgraphs_running ∧
    (id ∉ st.subgraphs_running →
      id ∉ (start st id env).2.subgraphs_running) := by
  have hs := start_error_running_eq st id env e h
  exact ⟨hs, fun hmem => by rw [hs]; exact hmem⟩

/-- Witness for the amended claim C3 at a concrete failing resolution. -/
theorem no_insert_on_failure_witness :
    (start ProviderState.new "B" envResolveFail).2.subgraphs_running =
      ProviderState.new.subgraphs_running ∧
    ("B" ∉ ProviderState.new.subgraphs_running →
      "B" ∉ (start ProviderState.new "B" envResolveFail).2.subgraphs_running) :=
  no_insert_on_failure ProviderState.new "B" envResolveFail
    (.ResolveError "ipfs timeout") rfl rfl

/-- Claim C4: every error returned by `start` — `AlreadyRunning`
included — triggers a failure-marker write against the argument
deployment id, and the original error is returned unchanged whether or
not the store accepts that write. -/
theorem start_error_marks_failed (st : ProviderState)
    (id : SubgraphDeploymentId) (env : StartEnv)
    (e : SubgraphAssignmentProviderError)
    (h : (start st id env).1 = Except.error e) :
    (start st id env).2.marker_attempts = st.marker_attempts ++ [id] ∧
    ∀ b : Bool,
      (start st id { env with marker_write_ok := b }).1 = Except.error e :=
  ⟨start_error_marker_attempts st id env e h,
   fun b => (start_result_marker_independent st id env b).trans h⟩

/-- Witness for claim C4 at an `AlreadyRunning` error: the marker is
written even though the deployment is healthy, and flipping the store's
answer does not change the returned error. -/
theorem start_error_marks_failed_witness :
    (start { ProviderState.new with subgraphs_running := {"A"} } "A"
      envA).2.marker_attempts = [] ++ ["A"] ∧
    ∀ b : Bool,
      (start { ProviderState.new with subgraphs_running := {"A"} } "A"
        { envA with marker_write_ok := b }).1 =
        Except.error (.AlreadyRunning "A") :=
  start_error_marks_failed
    { ProviderState.new with subgraphs_running := {"A"} } "A" envA
    (.AlreadyRunning "A") (by decide)

/-- Claim C5: once resolution and the guard insertion succeed, the
attribute-index build is best-effort — with the store refusing the index
build, `start` still returns `Ok(())` and still enqueues the same Start
event as with a successful build. -/
theorem index_build_failure_does_not_affect_start (st : ProviderState)
    (id : SubgraphDeploymentId) (env : StartEnv) (m0 : SubgraphManifest)
    (d : List DataSource)
    (hr : env.resolve_result = Except.ok m0)
    (hl : env.load_dds_result = Except.ok d)
    (hmem : m0.id ∉ st.subgraphs_running) :
    (start st id { env with index_build_ok := false }).1 = Except.ok () ∧
    (start st id { env with index_build_ok := false }).1 =
      (start st id { env with index_build_ok := true }).1 ∧
    (start st id { env with index_build_ok := false }).2.events =
      st.events ++ [.SubgraphStart
        { m0 with data_sources := m0.data_sources ++ d }] ∧
    (start st id { env with index_build_ok := false }).2.events =
      (start st id { env with index_build_ok := true }).2.events := by
  rw [start_of_resolved st id { env with index_build_ok := false } m0 d hr hl hmem,
    start_of_resolved st id { env with index_build_ok := true } m0 d hr hl hmem]
  exact ⟨rfl, rfl, rfl, rfl⟩

/-- Witness for claim C5 on a concrete deployment. -/
theorem index_build_failure_does_not_affect_start_witness :
    (start ProviderState.new "A" { envA with index_build_ok := false }).1 =
      Except.ok () ∧
    (start ProviderState.new "A" { envA with index_build_ok := false }).1 =
      (start ProviderState.new "A" { envA with index_build_ok := true }).1 ∧
    (start ProviderState.new "A"
        { envA with index_build_ok := false }).2.events =
      ProviderState.new.events ++ [.SubgraphStart
        { mA with data_sources := mA.data_sources ++ [{ name := "dyn0" }] }] ∧
    (start ProviderState.new "A"
        { envA with index_build_ok := false }).2.events =
      (start ProviderState.new "A"
        { envA with index_build_ok := true }).2.events :=
  index_build_failure_does_not_affect_start ProviderState.new "A" envA mA
    [{ name := "dyn0" }] rfl rfl (by decide)

/-- Claim C6: a successful `start` has, before returning, enqueued exactly
one Start event, and that event carries the assembled manifest (static
data sources followed by the loaded dynamic ones). -/
theorem start_ok_emits_one_start_event (st : ProviderState)
    (id : SubgraphDeploymentId) (env : StartEnv)
    (h : (start st id env).1 = Except.ok ()) :
    ∃ m0 d, env.resolve_result = Except.ok m0 ∧
      env.load_dds_result = Except.ok d ∧
      (start st id env).2.events = st.events ++
        [.SubgraphStart { m0 with data_sources := m0.data_sources ++ d }] := by
  obtain ⟨m0, d, hr, hl, hmem⟩ := start_ok_inversion st id env h
  exact ⟨m0, d, hr, hl, by rw [start_of_resolved st id env m0 d hr hl hmem]⟩

/-- Witness for claim C6 on a concrete successful start. -/
theorem start_ok_emits_one_start_event_witness :
    ∃ m0 d, envA.resolve_result = Except.ok m0 ∧
      envA.load_dds_result = Except.ok d ∧
      (start ProviderState.new "A" envA).2.events =
        ProviderState.new.events ++
        [.SubgraphStart { m0 with data_sources := m0.data_sources ++ d }] :=
  start_ok_emits_one_start_event ProviderState.new "A" envA rfl

/-- Claim C7: `stop(id)` on an id outside the running set returns
`NotRunning(id)` and leaves the state — in particular the event
channel — untouched; on an id in the set it removes the id and enqueues
a Stop event carrying it. -/
theorem stop_spec (st : ProviderState) (id : SubgraphDeploymentId) :
    (id ∉ st.subgraphs_running →
      stop st id = (Except.error (.NotRunning id), st)) ∧
    (id ∈ st.subgraphs_running →
      (stop st id).1 = Except.ok () ∧
      (stop st id).2.subgraphs_running = st.subgraphs_running.erase id ∧
      (stop st id).2.events = st.events ++ [.SubgraphStop id]) := by
  unfold stop runningRemove
  by_cases h : id ∈ st.subgraphs_running <;> simp [h]

/-- Witness for claim C7: stopping a never-started deployment fails with
`NotRunning` and changes nothing; stopping a running one succeeds. -/
theorem stop_spec_witness :
    stop { ProviderState.new with subgraphs_running := {"A"} } "B" =
      (Except.error (.NotRunning "B"),
        { ProviderState.new with subgraphs_running := {"A"} }) ∧
    (stop { ProviderState.new with subgraphs_running := {"A"} } "A").1 =
      Except.ok () :=
  ⟨(stop_spec { ProviderState.new with subgraphs_running := {"A"} } "B").1
      (by decide),
   ((stop_spec { ProviderState.new with subgraphs_running := {"A"} } "A").2
      (by decide)).1⟩

/-- Claim C8: the first `take_event_stream` on a fresh provider yields the
receiver; afterwards the handle is gone, and it stays gone across any
further sequence of provider calls, so every later take yields `none`. -/
theorem take_event_stream_single_consumer :
    (take_event_stream ProviderState.new).1 = some () ∧
    (take_event_stream ProviderState.new).2.event_stream = none ∧
    ∀ (st : ProviderState) (ops : List ProviderOp),
      st.event_stream = none →
      (take_event_stream (runTrace st ops).1).1 = none := by
  refine ⟨rfl, rfl, fun st ops h => ?_⟩
  have hnone := runTrace_event_stream_none ops st h
  simp [take_event_stream, hnone]

/-- Witness for claim C8: take, run two calls, take again. -/
theorem take_event_stream_single_consumer_witness :
    (take_event_stream ProviderState.new).1 = some () ∧
    (take_event_stream (runTrace (take_event_stream ProviderState.new).2
      [ProviderOp.opStart "A" envA, ProviderOp.opStop "A"]).1).1 = none :=
  ⟨take_event_stream_single_consumer.1,
   take_event_stream_single_consumer.2.2 _ _ rfl⟩

/-- Claim C9: the manifest carried by the Start event lists the static
data sources in their original order followed by the dynamic ones exactly
in the order the loader returned them. -/
theorem data_source_order_preserved (st : ProviderState)
    (id : SubgraphDeploymentId) (env : StartEnv) (m0 : SubgraphManifest)
    (d : List DataSource)
    (hr : env.resolve_result = Except.ok m0)
    (hl : env.load_dds_result = Except.ok d)
    (h : (start st id env).1 = Except.ok ()) :
    (start st id env).2.events = st.events ++
      [.SubgraphStart { id := m0.id, schema := m0.schema,
                        data_sources := m0.data_sources ++ d }] := by
  obtain ⟨m1, d1, hr1, hl1, hmem⟩ := start_ok_inversion st id env h
  rw [hr] at hr1
  rw [hl] at hl1
  cases hr1
  cases hl1
  rw [start_of_resolved st id env m0 d hr hl hmem]

/-- Witness for claim C9 with one static and one dynamic source. -/
theorem data_source_order_preserved_witness :
    (start ProviderState.new "A" envA).2.events =
      ProviderState.new.events ++
      [.SubgraphStart { id := mA.id, schema := mA.schema,
                        data_sources := mA.data_sources ++
                          [{ name := "dyn0" }] }] :=
  data_source_order_preserved ProviderState.new "A" envA mA
    [{ name := "dyn0" }] rfl rfl rfl

/-- Claim C10: the guard insertion and the `AlreadyRunning` payload use
the id of the RESOLVED manifest (`subgraph.id`), while the failure marker
is written against the ARGUMENT id; when the two differ, set membership
and the error track the manifest's id but the marker targets the
caller-supplied one. -/
theorem manifest_id_vs_argument_id (st : ProviderState)
    (id : SubgraphDeploymentId) (env : StartEnv) (m0 : SubgraphManifest)
    (d : List DataSource)
    (hr : env.resolve_result = Except.ok m0)
    (hl : env.load_dds_result = Except.ok d) :
    (m0.id ∉ st.subgraphs_running →
      (start st id env).1 = Except.ok () ∧
      (start st id env).2.subgraphs_running =
        insert m0.id st.subgraphs_running) ∧
    (m0.id ∈ st.subgraphs_running →
      (start st id env).1 = Except.error (.AlreadyRunning m0.id) ∧
      (start st id env).2.subgraphs_running = st.subgraphs_running ∧
      (start st id env).2.marker_attempts = st.marker_attempts ++ [id]) := by
  constructor
  · intro hmem
    rw [start_of_resolved st id env m0 d hr hl hmem]
    exact ⟨rfl, rfl⟩
  · intro hmem
    rw [start_of_already_running st id env m0 d hr hl hmem]
    exact ⟨rfl, rfl, rfl⟩

/-- Witness for claim C10: the argument id is `"A"` but the resolved
manifest's id is `"M"`, which is already running — the error carries
`"M"`, the set keeps `"M"` and never sees `"A"`, yet the failure marker
is written for `"A"`. -/
theorem manifest_id_vs_argument_id_witness :
    (start { ProviderState.new with subgraphs_running := {"M"} } "A"
      envOtherId).1 = Except.error (.AlreadyRunning "M") ∧
    (start { ProviderState.new with subgraphs_running := {"M"} } "A"
      envOtherId).2.subgraphs_running = {"M"} ∧
    (start { ProviderState.new with subgraphs_running := {"M"} } "A"
      envOtherId).2.marker_attempts = [] ++ ["A"] :=
  (manifest_id_vs_argument_id
    { ProviderState.new with subgraphs_running := {"M"} } "A" envOtherId
    { id := "M", schema := "type T", data_sources := [] } [] rfl rfl).2
    (by decide)
